import Mathlib

/-!
Verification of the page-batch-processor core of the price-tracker
web-scraping repository, shallowly embedded in Lean 4.

The embedded code lives in backend/app/mcp_testing.py and
backend/app/workflows/mcp.py (the PlaywrightMcp wrapper class: the
multiple_clients batch method, the extract_snapshot / take_screenshot /
query_into_search_input single-page operations, and their helpers
_open_page, _extract_text, _extract_image_bytes), plus the environment
configuration in backend/app/config/env_variables.py.

Remote MCP tool calls are modelled by an oracle that maps each tool call
to either a successful tool result or an error (a raised exception in
the Python code). Every method is embedded as a function that records
the exact trace of tool calls it issues, the file writes it performs,
and its return value or propagated error. The bounded-concurrency batch
(asyncio.Semaphore plus asyncio.gather) is additionally modelled by a
small-step interleaving machine, so that properties quantify over every
possible completion order of the page tasks.
-/

/-- A page descriptor, source class PageItem (TypedDict with name, url). -/
structure PageItem where
  name : String
  url : String
deriving Repr, DecidableEq

/-- A per-page output, source class PageItemResult (name, url, snapshot). -/
structure PageItemResult where
  name : String
  url : String
  snapshot : String
deriving Repr, DecidableEq

/-- One content item of an MCP tool result. The fastmcp content items are
duck-typed objects carrying a type tag plus a text payload (text items) or
a base64 data payload (image items); we model them as one record with all
three fields, matching the attribute accesses the source performs
(getattr(item, "type", None), item.text, item.data). -/
structure ContentItem where
  type : String
  text : String
  data : String
deriving Repr, DecidableEq

/-- An MCP tool result: a sequence of content items. -/
structure ToolResult where
  content : List ContentItem
deriving Repr, DecidableEq

/-- An argument value of a tool call (the source passes strings, numbers
and booleans in its argument dictionaries). -/
inductive ArgValue where
  | str (s : String)
  | nat (n : Nat)
  | bool (b : Bool)
deriving Repr, DecidableEq

/-- One remote tool call: tool name plus argument assignment, exactly the
pair passed to client.call_tool in the source. -/
structure ToolCall where
  name : String
  args : List (String × ArgValue)
deriving Repr, DecidableEq

/-- The call client.call_tool("browser_navigate", dict with url). -/
def navigateCall (url : String) : ToolCall :=
  ⟨"browser_navigate", [("url", ArgValue.str url)]⟩

/-- The call client.call_tool("browser_wait_for", dict with time). -/
def waitCall (t : Nat) : ToolCall :=
  ⟨"browser_wait_for", [("time", ArgValue.nat t)]⟩

/-- The call client.call_tool("browser_snapshot", empty dict). -/
def snapshotCall : ToolCall :=
  ⟨"browser_snapshot", []⟩

/-- The call client.call_tool("browser_take_screenshot", dict with
fullPage and type png). -/
def screenshotCall (fullPage : Bool) : ToolCall :=
  ⟨"browser_take_screenshot", [("fullPage", ArgValue.bool fullPage), ("type", ArgValue.str "png")]⟩

/-- The browser_click call issued by query_into_search_input. -/
def clickCall (ref : String) : ToolCall :=
  ⟨"browser_click", [("ref", ArgValue.str ref), ("element", ArgValue.str "search input")]⟩

/-- The browser_type call issued by query_into_search_input. -/
def typeCall (ref text : String) : ToolCall :=
  ⟨"browser_type", [("ref", ArgValue.str ref), ("element", ArgValue.str "search input"),
    ("text", ArgValue.str text)]⟩

/-- The browser_press_key call issued by query_into_search_input. -/
def pressKeyCall (key : String) : ToolCall :=
  ⟨"browser_press_key", [("key", ArgValue.str key)]⟩

/-- The remote server, as seen through client.call_tool: for each tool
call, either a tool result or a raised exception (modelled as an error
message). Deterministic per call, which is the standard test-double view. -/
def Oracle : Type := ToolCall → Except String ToolResult

/-- Value of one base64 alphabet character, none for non-alphabet
characters (including the padding character). -/
def b64charVal (c : Char) : Option Nat :=
  if 'A' ≤ c ∧ c ≤ 'Z' then some (c.toNat - 65)
  else if 'a' ≤ c ∧ c ≤ 'z' then some (c.toNat - 97 + 26)
  else if '0' ≤ c ∧ c ≤ '9' then some (c.toNat - 48 + 52)
  else if c = '+' then some 62
  else if c = '/' then some 63
  else none

/-- Decode a stream of 6-bit values into bytes, four values giving three
bytes, with the usual truncation for a trailing group of two or three
values (the padded tail of a base64 string). -/
def b64quads : List Nat → List Nat
  | a :: b :: c :: d :: rest =>
      (a * 4 + b / 16) % 256 :: ((b % 16) * 16 + c / 4) % 256 :: ((c % 4) * 64 + d) % 256
        :: b64quads rest
  | [a, b, c] => [(a * 4 + b / 16) % 256, ((b % 16) * 16 + c / 4) % 256]
  | [a, b] => [(a * 4 + b / 16) % 256]
  | _ => []

/-- Embedding of base64.b64decode on well-formed base64 input: drop
padding and non-alphabet characters, then decode 6-bit groups. -/
def b64decode (s : String) : List Nat :=
  b64quads (s.data.filterMap b64charVal)

/-- One file written to the filesystem: filename and byte contents
(open(filename, "wb") followed by f.write(img) in the source). -/
structure FileWrite where
  filename : String
  contents : List Nat
deriving Repr, DecidableEq

/-- Embedding of PlaywrightMcp._extract_text: the text of content item 0
if the content sequence is non-empty, else the empty string
(return result.content[0].text if result.content else ""). The same
function body appears in both mcp_testing.py and workflows/mcp.py. -/
def _extract_text (result : ToolResult) : String :=
  match result.content with
  | [] => ""
  | c :: _ => c.text

/-- Embedding of PlaywrightMcp._extract_image_bytes: scan the content
items in order, return the base64-decoded data of the first one whose
type tag is image, else none. -/
def _extract_image_bytes (result : ToolResult) : Option (List Nat) :=
  match result.content.find? (fun item => item.type == "image") with
  | some item => some (b64decode item.data)
  | none => none

deriving instance DecidableEq for Except

/-- Full observable outcome of one page task: its tool-call trace, its
file writes, and its returned PageItemResult or propagated error. -/
structure PageOutcome where
  calls : List ToolCall
  writes : List FileWrite
  result : Except String PageItemResult
deriving Repr, DecidableEq

/-- Embedding of the inner coroutine process_page_item of
PlaywrightMcp.multiple_clients: open a fresh client session, navigate and
wait (self._open_page), take a full-page png screenshot, write
name + ".png" when the extracted image bytes are truthy (a non-empty byte
string in Python), snapshot, and return the name/url/snapshot record.
A failing remote call aborts the task at that point, and any writes
already performed remain performed. -/
def process_page_item (oracle : Oracle) (item : PageItem) : PageOutcome :=
  let c1 := navigateCall item.url
  match oracle c1 with
  | Except.error e => ⟨[c1], [], Except.error e⟩
  | Except.ok _ =>
  let c2 := waitCall 5
  match oracle c2 with
  | Except.error e => ⟨[c1, c2], [], Except.error e⟩
  | Except.ok _ =>
  let c3 := screenshotCall true
  match oracle c3 with
  | Except.error e => ⟨[c1, c2, c3], [], Except.error e⟩
  | Except.ok shot =>
  let writes := match _extract_image_bytes shot with
    | some img => if img = [] then [] else [⟨item.name ++ ".png", img⟩]
    | none => []
  let c4 := snapshotCall
  match oracle c4 with
  | Except.error e => ⟨[c1, c2, c3, c4], writes, Except.error e⟩
  | Except.ok snap => ⟨[c1, c2, c3, c4], writes, Except.ok ⟨item.name, item.url, _extract_text snap⟩⟩

/-- Embedding of PlaywrightMcp.multiple_clients as the value returned to
the caller: asyncio.gather with default settings either returns the list
of task results in input-list order or raises the exception of a failed
task, never a partial list. -/
def multiple_clients (oracle : Oracle) : List PageItem → Except String (List PageItemResult)
  | [] => Except.ok []
  | item :: rest =>
    match (process_page_item oracle item).result with
    | Except.error e => Except.error e
    | Except.ok r =>
      match multiple_clients oracle rest with
      | Except.error e => Except.error e
      | Except.ok rs => Except.ok (r :: rs)

/-- All remote tool calls issued by a multiple_clients batch: the calls
of every scheduled page task. -/
def batch_calls (oracle : Oracle) (items : List PageItem) : List ToolCall :=
  (items.map (fun item => (process_page_item oracle item).calls)).flatten

/-- Embedding of PlaywrightMcp.extract_snapshot: open a session, navigate
and wait, snapshot, return the extracted text; paired with its tool-call
trace. -/
def extract_snapshot (oracle : Oracle) (page_url : String) :
    List ToolCall × Except String String :=
  let c1 := navigateCall page_url
  match oracle c1 with
  | Except.error e => ([c1], Except.error e)
  | Except.ok _ =>
  let c2 := waitCall 5
  match oracle c2 with
  | Except.error e => ([c1, c2], Except.error e)
  | Except.ok _ =>
  let c3 := snapshotCall
  match oracle c3 with
  | Except.error e => ([c1, c2, c3], Except.error e)
  | Except.ok res => ([c1, c2, c3], Except.ok (_extract_text res))

/-- Embedding of PlaywrightMcp.take_screenshot: open a session, navigate
and wait, take a screenshot, and write the decoded bytes to the given
filename when they are truthy; returns the trace, the file writes and
unit or a propagated error. -/
def take_screenshot (oracle : Oracle) (page_url filename : String) (full_page : Bool) :
    List ToolCall × List FileWrite × Except String Unit :=
  let c1 := navigateCall page_url
  match oracle c1 with
  | Except.error e => ([c1], [], Except.error e)
  | Except.ok _ =>
  let c2 := waitCall 5
  match oracle c2 with
  | Except.error e => ([c1, c2], [], Except.error e)
  | Except.ok _ =>
  let c3 := screenshotCall full_page
  match oracle c3 with
  | Except.error e => ([c1, c2, c3], [], Except.error e)
  | Except.ok res =>
  let writes := match _extract_image_bytes res with
    | some img => if img = [] then [] else [⟨filename, img⟩]
    | none => []
  ([c1, c2, c3], writes, Except.ok ())

/-- Embedding of PlaywrightMcp.query_into_search_input: open a session,
navigate and wait, click the referenced input, type the query, press
Enter, wait again, snapshot, and return the extracted text; paired with
its tool-call trace. -/
def query_into_search_input (oracle : Oracle) (page_url input_element_ref query_text : String) :
    List ToolCall × Except String String :=
  let c1 := navigateCall page_url
  match oracle c1 with
  | Except.error e => ([c1], Except.error e)
  | Except.ok _ =>
  let c2 := waitCall 5
  match oracle c2 with
  | Except.error e => ([c1, c2], Except.error e)
  | Except.ok _ =>
  let c3 := clickCall input_element_ref
  match oracle c3 with
  | Except.error e => ([c1, c2, c3], Except.error e)
  | Except.ok _ =>
  let c4 := typeCall input_element_ref query_text
  match oracle c4 with
  | Except.error e => ([c1, c2, c3, c4], Except.error e)
  | Except.ok _ =>
  let c5 := pressKeyCall "Enter"
  match oracle c5 with
  | Except.error e => ([c1, c2, c3, c4, c5], Except.error e)
  | Except.ok _ =>
  let c6 := waitCall 5
  match oracle c6 with
  | Except.error e => ([c1, c2, c3, c4, c5, c6], Except.error e)
  | Except.ok _ =>
  let c7 := snapshotCall
  match oracle c7 with
  | Except.error e => ([c1, c2, c3, c4, c5, c6, c7], Except.error e)
  | Except.ok res => ([c1, c2, c3, c4, c5, c6, c7], Except.ok (_extract_text res))

/-- Embedding of os.getenv over an explicit environment mapping. -/
def getenv (env : List (String × String)) (key : String) : Option String :=
  (env.find? (fun p => p.1 == key)).map (fun p => p.2)

/-- Embedding of config/env_variables.py: PLAYWRIGHT_MCP_URL is the value
of os.getenv("PLAYWRIGHT_MCP_URL"), which is None when the variable is
absent from the environment. -/
def PLAYWRIGHT_MCP_URL (env : List (String × String)) : Option String :=
  getenv env "PLAYWRIGHT_MCP_URL"

/-- The transport object handed to the MCP client; the constructor
argument is stored as given. The source passes the possibly-None
PLAYWRIGHT_MCP_URL value straight into it. -/
structure StreamableHttpTransport where
  url : Option String
deriving Repr, DecidableEq

/-- The wrapper object: its only construction-time state is the
transport. -/
structure PlaywrightMcp where
  transport : StreamableHttpTransport
deriving Repr, DecidableEq

/-- Embedding of PlaywrightMcp.__init__: it stores
StreamableHttpTransport(mcp_server_url) on self and performs no
validation of the URL; construction always completes. -/
def PlaywrightMcp.init (mcp_server_url : Option String) : PlaywrightMcp :=
  ⟨⟨mcp_server_url⟩⟩

/-- A configuration error as the spec describes it (the source defines no
such type). -/
inductive ConfigurationError where
  | missingServerUrl
deriving Repr, DecidableEq

/-- Modelled from the spec: the constructor the specification describes,
which fails immediately with ConfigurationError when the server URL is
absent, before any remote call is attempted. The repository contains no
such check; this definition exists only to be compared against
PlaywrightMcp.init. -/
def initSpecModel (mcp_server_url : Option String) : Except ConfigurationError PlaywrightMcp :=
  match mcp_server_url with
  | none => Except.error ConfigurationError.missingServerUrl
  | some u => Except.ok ⟨⟨some u⟩⟩

/-!
Interleaving machine for the multiple_clients fan-out. Each page item is
one asynchronous task running the worker wrapper: acquire the semaphore
(suspending while its counter is zero), open a fresh client session, run
the remote calls of process_page_item, close the session (the async-with
block exits on success and on exception alike), and release the
semaphore (the semaphore async-with exits on success and on exception
alike). The machine interleaves these tasks in every possible order, so
theorems over all reachable states hold for every completion order. -/

/-- The lifecycle phase of one page task. -/
inductive Phase where
  | idle
  | acquired
  | opened
  | closed
  | done
deriving Repr, DecidableEq

/-- Phases in which the task holds a semaphore permit: from successful
acquisition until release. -/
def holdsPermit : Phase → Bool
  | Phase.acquired => true
  | Phase.opened => true
  | Phase.closed => true
  | _ => false

/-- Phases in which the task has its remote client session open. -/
def sessionOpen : Phase → Bool
  | Phase.opened => true
  | _ => false

/-- A global state of the batch: the semaphore counter, the phase of
every task (position-aligned with the input items), and the result slot
of every task (asyncio.gather stores each result at the index of the
awaitable that produced it). -/
structure BatchState where
  sem : Nat
  tasks : List Phase
  results : List (Option PageItemResult)
deriving Repr, DecidableEq

/-- The semaphore initial value in the source: asyncio.Semaphore(5). -/
def semInit : Nat := 5

/-- The state before any task has run: full semaphore, every task idle,
every result slot empty. -/
def initState (items : List PageItem) : BatchState :=
  ⟨semInit, items.map (fun _ => Phase.idle), items.map (fun _ => none)⟩

/-- One interleaving step of the batch: some task advances one stage of
its lifecycle. Acquisition is only enabled while the semaphore counter
is positive; a task whose remote calls fail still closes its session and
still releases its permit, but never fills its result slot. -/
inductive Step (oracle : Oracle) (items : List PageItem) : BatchState → BatchState → Prop where
  | acquire (i : Nat) (s : BatchState) :
      s.tasks[i]? = some Phase.idle → 0 < s.sem →
      Step oracle items s ⟨s.sem - 1, s.tasks.set i Phase.acquired, s.results⟩
  | openSession (i : Nat) (s : BatchState) :
      s.tasks[i]? = some Phase.acquired →
      Step oracle items s ⟨s.sem, s.tasks.set i Phase.opened, s.results⟩
  | finishOk (i : Nat) (s : BatchState) (item : PageItem) (r : PageItemResult) :
      s.tasks[i]? = some Phase.opened → items[i]? = some item →
      (process_page_item oracle item).result = Except.ok r →
      Step oracle items s ⟨s.sem, s.tasks.set i Phase.closed, s.results.set i (some r)⟩
  | finishErr (i : Nat) (s : BatchState) (item : PageItem) (e : String) :
      s.tasks[i]? = some Phase.opened → items[i]? = some item →
      (process_page_item oracle item).result = Except.error e →
      Step oracle items s ⟨s.sem, s.tasks.set i Phase.closed, s.results⟩
  | release (i : Nat) (s : BatchState) :
      s.tasks[i]? = some Phase.closed →
      Step oracle items s ⟨s.sem + 1, s.tasks.set i Phase.done, s.results⟩

/-- The states an execution of the batch can reach from the initial
state, under any interleaving of the tasks. -/
def Reachable (oracle : Oracle) (items : List PageItem) (s : BatchState) : Prop :=
  Relation.ReflTransGen (Step oracle items) (initState items) s

/-- The inductive invariant of the batch machine: the state vectors are
aligned with the input, the semaphore counter plus the outstanding
permits always equals the initial value (each task acquires once and
releases once), and every filled result slot holds the result computed
from the item at the same index. -/
structure BatchInv (oracle : Oracle) (items : List PageItem) (s : BatchState) : Prop where
  tasks_len : s.tasks.length = items.length
  results_len : s.results.length = items.length
  sem_balance : s.sem + s.tasks.countP holdsPermit = semInit
  results_ok : ∀ (i : Nat) (r : PageItemResult), s.results[i]? = some (some r) →
    ∃ item, items[i]? = some item ∧ (process_page_item oracle item).result = Except.ok r

theorem countP_set_getElem? {α : Type} (p : α → Bool) (l : List α) (i : Nat) (a b : α)
    (h : l[i]? = some a) :
    (l.set i b).countP p + (if p a then 1 else 0) = l.countP p + (if p b then 1 else 0) := by
  induction l generalizing i with
  | nil => simp at h
  | cons x xs ih =>
    cases i with
    | zero =>
      simp only [List.getElem?_cons_zero, Option.some.injEq] at h
      subst h
      simp only [List.set, List.countP_cons]
      omega
    | succ n =>
      simp only [List.getElem?_cons_succ] at h
      have hx := ih n h
      simp only [List.set, List.countP_cons]
      omega

theorem inv_init (oracle : Oracle) (items : List PageItem) :
    BatchInv oracle items (initState items) := by
  refine ⟨by simp [initState], by simp [initState], ?_, ?_⟩
  · have : (items.map (fun _ => Phase.idle)).countP holdsPermit = 0 := by
      rw [List.countP_eq_zero]
      intro a ha
      rcases List.mem_map.mp ha with ⟨_, _, rfl⟩
      simp [holdsPermit]
    simp [initState, this, holdsPermit]
  · intro i r h
    simp only [initState, List.getElem?_map] at h
    cases hx : items[i]? with
    | none => rw [hx] at h; simp at h
    | some it => rw [hx] at h; simp at h

theorem inv_step (oracle : Oracle) (items : List PageItem) (s s' : BatchState)
    (hstep : Step oracle items s s') (hinv : BatchInv oracle items s) :
    BatchInv oracle items s' := by
  obtain ⟨hlen, hrlen, hbal, hres⟩ := hinv
  cases hstep with
  | acquire i t ht hsem =>
    have key := countP_set_getElem? holdsPermit s.tasks i Phase.idle Phase.acquired ht
    have e1 : holdsPermit Phase.idle = false := rfl
    have e2 : holdsPermit Phase.acquired = true := rfl
    rw [e1, e2] at key
    simp only [Bool.false_eq_true, if_false, if_true, Nat.add_zero] at key
    refine ⟨?_, hrlen, ?_, hres⟩
    · show (s.tasks.set i Phase.acquired).length = items.length
      rw [List.length_set]; exact hlen
    · show s.sem - 1 + (s.tasks.set i Phase.acquired).countP holdsPermit = semInit
      omega
  | openSession i t ht =>
    have key := countP_set_getElem? holdsPermit s.tasks i Phase.acquired Phase.opened ht
    have e1 : holdsPermit Phase.acquired = true := rfl
    have e2 : holdsPermit Phase.opened = true := rfl
    rw [e1, e2] at key
    simp only [if_true] at key
    refine ⟨?_, hrlen, ?_, hres⟩
    · show (s.tasks.set i Phase.opened).length = items.length
      rw [List.length_set]; exact hlen
    · show s.sem + (s.tasks.set i Phase.opened).countP holdsPermit = semInit
      omega
  | finishOk i t item r ht hitem hok =>
    have key := countP_set_getElem? holdsPermit s.tasks i Phase.opened Phase.closed ht
    have e1 : holdsPermit Phase.opened = true := rfl
    have e2 : holdsPermit Phase.closed = true := rfl
    rw [e1, e2] at key
    simp only [if_true] at key
    refine ⟨?_, ?_, ?_, ?_⟩
    · show (s.tasks.set i Phase.closed).length = items.length
      rw [List.length_set]; exact hlen
    · show (s.results.set i (some r)).length = items.length
      rw [List.length_set]; exact hrlen
    · show s.sem + (s.tasks.set i Phase.closed).countP holdsPermit = semInit
      omega
    · intro j r' hj
      have hj' : (s.results.set i (some r))[j]? = some (some r') := hj
      rw [List.getElem?_set] at hj'
      by_cases hij : i = j
      · subst hij
        by_cases hlt : i < s.results.length
        · rw [if_pos rfl, if_pos hlt] at hj'
          have hrr : r = r' := by
            have := Option.some.inj hj'
            exact Option.some.inj this
          subst hrr
          exact ⟨item, hitem, hok⟩
        · rw [if_pos rfl, if_neg hlt] at hj'
          exact absurd hj' (by simp)
      · rw [if_neg hij] at hj'
        exact hres j r' hj'
  | finishErr i t item e ht hitem herr =>
    have key := countP_set_getElem? holdsPermit s.tasks i Phase.opened Phase.closed ht
    have e1 : holdsPermit Phase.opened = true := rfl
    have e2 : holdsPermit Phase.closed = true := rfl
    rw [e1, e2] at key
    simp only [if_true] at key
    refine ⟨?_, hrlen, ?_, hres⟩
    · show (s.tasks.set i Phase.closed).length = items.length
      rw [List.length_set]; exact hlen
    · show s.sem + (s.tasks.set i Phase.closed).countP holdsPermit = semInit
      omega
  | release i t ht =>
    have key := countP_set_getElem? holdsPermit s.tasks i Phase.closed Phase.done ht
    have e1 : holdsPermit Phase.closed = true := rfl
    have e2 : holdsPermit Phase.done = false := rfl
    rw [e1, e2] at key
    simp only [Bool.false_eq_true, if_false, if_true, Nat.add_zero] at key
    refine ⟨?_, hrlen, ?_, hres⟩
    · show (s.tasks.set i Phase.done).length = items.length
      rw [List.length_set]; exact hlen
    · show s.sem + 1 + (s.tasks.set i Phase.done).countP holdsPermit = semInit
      omega

theorem inv_reachable (oracle : Oracle) (items : List PageItem) (s : BatchState)
    (h : Reachable oracle items s) : BatchInv oracle items s := by
  have h' : Relation.ReflTransGen (Step oracle items) (initState items) s := h
  clear h
  induction h' with
  | refl => exact inv_init oracle items
  | tail hab hbc ih => exact inv_step oracle items _ _ hbc ih

theorem process_result_preserves_name_url (oracle : Oracle) (item : PageItem)
    (r : PageItemResult) (h : (process_page_item oracle item).result = Except.ok r) :
    r.name = item.name ∧ r.url = item.url := by
  cases h1 : oracle (navigateCall item.url) with
  | error e => simp [process_page_item, h1] at h
  | ok r1 =>
  cases h2 : oracle (waitCall 5) with
  | error e => simp [process_page_item, h1, h2] at h
  | ok r2 =>
  cases h3 : oracle (screenshotCall true) with
  | error e => simp [process_page_item, h1, h2, h3] at h
  | ok r3 =>
  cases h4 : oracle snapshotCall with
  | error e => simp [process_page_item, h1, h2, h3, h4] at h
  | ok r4 =>
    simp only [process_page_item, h1, h2, h3, h4, Except.ok.injEq] at h
    subst h
    exact ⟨rfl, rfl⟩

/-- A test-double oracle whose every tool result has empty content. -/
def oracleAllEmpty : Oracle := fun _ => Except.ok ⟨[]⟩

/-- C10: text extraction from a remote tool result uses only the first
content item: whenever the content sequence is non-empty, _extract_text
returns the text field of the item at index 0, and every further content
item is ignored regardless of its number or type. -/
theorem extract_text_uses_only_first_item (res : ToolResult) (c : ContentItem)
    (rest : List ContentItem) (h : res.content = c :: rest) :
    _extract_text res = c.text := by
  cases res with
  | mk content =>
    cases h
    rfl

theorem extract_text_uses_only_first_item_witness :
    (ToolResult.mk [⟨"text", "first", ""⟩, ⟨"image", "second", "QQ=="⟩]).content =
      ⟨"text", "first", ""⟩ :: [⟨"image", "second", "QQ=="⟩] ∧
    _extract_text (ToolResult.mk [⟨"text", "first", ""⟩, ⟨"image", "second", "QQ=="⟩]) =
      "first" :=
  ⟨rfl, extract_text_uses_only_first_item _ _ _ rfl⟩

/-- C5: whenever the remote snapshot call returns a result with an empty
content sequence (and the preceding calls of the operation succeed), the
snapshot value is exactly the empty string and no error is raised: the
single-page extract_snapshot returns ok with the empty string, and the
batch page task returns its PageItemResult with an empty snapshot. -/
theorem empty_snapshot_content_gives_empty_string (oracle : Oracle) (page_url : String)
    (item : PageItem) (res : ToolResult)
    (hok : ∀ c : ToolCall, ∃ r, oracle c = Except.ok r)
    (hsnap : oracle snapshotCall = Except.ok res)
    (hempty : res.content = []) :
    (extract_snapshot oracle page_url).2 = Except.ok "" ∧
    (process_page_item oracle item).result = Except.ok ⟨item.name, item.url, ""⟩ := by
  obtain ⟨r1, h1⟩ := hok (navigateCall page_url)
  obtain ⟨r2, h2⟩ := hok (waitCall 5)
  obtain ⟨r1x, h1x⟩ := hok (navigateCall item.url)
  obtain ⟨r3, h3⟩ := hok (screenshotCall true)
  have htext : _extract_text res = "" := by
    unfold _extract_text
    rw [hempty]
  constructor
  · simp only [extract_snapshot, h1, h2, hsnap, htext]
  · simp only [process_page_item, h1x, h2, h3, hsnap, htext]

theorem empty_snapshot_content_gives_empty_string_witness :
    ((∀ c : ToolCall, ∃ r, oracleAllEmpty c = Except.ok r) ∧
      oracleAllEmpty snapshotCall = Except.ok ⟨[]⟩ ∧
      (ToolResult.mk []).content = []) ∧
    ((extract_snapshot oracleAllEmpty "http://x").2 = Except.ok "" ∧
      (process_page_item oracleAllEmpty ⟨"A", "http://x"⟩).result =
        Except.ok ⟨"A", "http://x", ""⟩) :=
  ⟨⟨fun _ => ⟨⟨[]⟩, rfl⟩, rfl, rfl⟩,
    empty_snapshot_content_gives_empty_string oracleAllEmpty "http://x" ⟨"A", "http://x"⟩
      ⟨[]⟩ (fun _ => ⟨⟨[]⟩, rfl⟩) rfl rfl⟩

/-- C6: whenever a screenshot tool result contains no content item whose
type tag is image (and the preceding calls of the operation succeed), no
file is written and no error is raised, both in the single-page
take_screenshot and in the screenshot step of a batch page task. -/
theorem no_image_content_writes_no_file (oracle : Oracle) (page_url filename : String)
    (full_page : Bool) (item : PageItem) (res resT : ToolResult)
    (hok : ∀ c : ToolCall, ∃ r, oracle c = Except.ok r)
    (hshot : oracle (screenshotCall full_page) = Except.ok res)
    (hshotT : oracle (screenshotCall true) = Except.ok resT)
    (hnoimg : ∀ ci ∈ res.content, ¬ ci.type = "image")
    (hnoimgT : ∀ ci ∈ resT.content, ¬ ci.type = "image") :
    (take_screenshot oracle page_url filename full_page).2.1 = [] ∧
    (take_screenshot oracle page_url filename full_page).2.2 = Except.ok () ∧
    ∀ snap, oracle snapshotCall = Except.ok snap →
      (process_page_item oracle item).writes = [] := by
  obtain ⟨r1, h1⟩ := hok (navigateCall page_url)
  obtain ⟨r2, h2⟩ := hok (waitCall 5)
  obtain ⟨r1x, h1x⟩ := hok (navigateCall item.url)
  have hnone : _extract_image_bytes res = none := by
    unfold _extract_image_bytes
    have hfind : res.content.find? (fun it => it.type == "image") = none := by
      rw [List.find?_eq_none]
      intro x hx
      simp only [beq_iff_eq]
      exact hnoimg x hx
    rw [hfind]
  have hnoneT : _extract_image_bytes resT = none := by
    unfold _extract_image_bytes
    have hfindT : resT.content.find? (fun it => it.type == "image") = none := by
      rw [List.find?_eq_none]
      intro x hx
      simp only [beq_iff_eq]
      exact hnoimgT x hx
    rw [hfindT]
  refine ⟨?_, ?_, ?_⟩
  · simp only [take_screenshot, h1, h2, hshot, hnone]
  · simp only [take_screenshot, h1, h2, hshot, hnone]
  · intro snap hsnap
    simp only [process_page_item, h1x, h2, hshotT, hnoneT, hsnap]

theorem no_image_content_writes_no_file_witness :
    ((∀ c : ToolCall, ∃ r, oracleAllEmpty c = Except.ok r) ∧
      oracleAllEmpty (screenshotCall true) = Except.ok ⟨[]⟩ ∧
      (∀ ci ∈ (ToolResult.mk []).content, ¬ ci.type = "image")) ∧
    ((take_screenshot oracleAllEmpty "http://x" "out.png" true).2.1 = [] ∧
      (take_screenshot oracleAllEmpty "http://x" "out.png" true).2.2 = Except.ok () ∧
      ∀ snap, oracleAllEmpty snapshotCall = Except.ok snap →
        (process_page_item oracleAllEmpty ⟨"A", "http://x"⟩).writes = []) :=
  ⟨⟨fun _ => ⟨⟨[]⟩, rfl⟩, rfl, by simp⟩,
    no_image_content_writes_no_file oracleAllEmpty "http://x" "out.png" true ⟨"A", "http://x"⟩
      ⟨[]⟩ ⟨[]⟩ (fun _ => ⟨⟨[]⟩, rfl⟩) rfl rfl (by simp) (by simp)⟩

/-- C8: for the empty request list, the batch processor returns an empty
sequence and its page tasks issue zero remote tool calls. -/
theorem empty_batch_empty_result_no_calls (oracle : Oracle) :
    multiple_clients oracle [] = Except.ok [] ∧ batch_calls oracle [] = [] :=
  ⟨rfl, rfl⟩

/-- A test-double oracle whose browser_navigate call fails, modelling a
network error raised by the first remote call of a page task. -/
def oracleFailNav : Oracle := fun c =>
  if c.name = "browser_navigate" then Except.error "ConnectError"
  else Except.ok ⟨[]⟩

/-- C3: if any page task of the batch fails (its remote calls raise an
error), the whole multiple_clients call raises an error that comes from
one of the failing tasks, and no partial result list is returned. -/
theorem single_failure_aborts_whole_batch (oracle : Oracle) (items : List PageItem)
    (h : ∃ item ∈ items, ∃ e, (process_page_item oracle item).result = Except.error e) :
    ∃ e, multiple_clients oracle items = Except.error e ∧
      ∃ item ∈ items, (process_page_item oracle item).result = Except.error e := by
  induction items with
  | nil => simp at h
  | cons x xs ih =>
    rcases h with ⟨item, hmem, e, herr⟩
    rcases List.mem_cons.mp hmem with hx | hmem2
    · subst hx
      refine ⟨e, ?_, ⟨item, List.mem_cons_self item xs, herr⟩⟩
      simp only [multiple_clients, herr]
    · cases hx : (process_page_item oracle x).result with
      | error e0 =>
        refine ⟨e0, ?_, ⟨x, List.mem_cons_self x xs, hx⟩⟩
        simp only [multiple_clients, hx]
      | ok r =>
        obtain ⟨e2, hmc, item2, hmem3, herr2⟩ := ih ⟨item, hmem2, e, herr⟩
        refine ⟨e2, ?_, ⟨item2, List.mem_cons_of_mem x hmem3, herr2⟩⟩
        simp only [multiple_clients, hx, hmc]

theorem single_failure_aborts_whole_batch_witness :
    (∃ item ∈ [PageItem.mk "A" "http://x"], ∃ e,
      (process_page_item oracleFailNav item).result = Except.error e) ∧
    (∃ e, multiple_clients oracleFailNav [PageItem.mk "A" "http://x"] = Except.error e ∧
      ∃ item ∈ [PageItem.mk "A" "http://x"],
        (process_page_item oracleFailNav item).result = Except.error e) :=
  ⟨⟨⟨"A", "http://x"⟩, by decide, "ConnectError", by decide⟩,
    single_failure_aborts_whole_batch oracleFailNav [PageItem.mk "A" "http://x"]
      ⟨⟨"A", "http://x"⟩, by decide, "ConnectError", by decide⟩⟩

/-- A test-double oracle whose every tool result is a single text item. -/
def oracleAllText : Oracle := fun _ => Except.ok ⟨[⟨"text", "results page", ""⟩]⟩

/-- C9: when the search operation returns successfully, its remote calls
were issued in exactly this order within one session: navigate to the
URL, wait 5, click the referenced input, type the query text into it,
press the Enter key, wait 5 again, then snapshot; and the returned value
is the text extracted from the snapshot result. -/
theorem search_issues_calls_in_order (oracle : Oracle)
    (page_url input_element_ref query_text t : String)
    (h : (query_into_search_input oracle page_url input_element_ref query_text).2 =
      Except.ok t) :
    (query_into_search_input oracle page_url input_element_ref query_text).1 =
      [navigateCall page_url, waitCall 5, clickCall input_element_ref,
        typeCall input_element_ref query_text, pressKeyCall "Enter", waitCall 5,
        snapshotCall] ∧
    ∃ res, oracle snapshotCall = Except.ok res ∧ t = _extract_text res := by
  cases h1 : oracle (navigateCall page_url) with
  | error e => simp [query_into_search_input, h1] at h
  | ok r1 =>
  cases h2 : oracle (waitCall 5) with
  | error e => simp [query_into_search_input, h1, h2] at h
  | ok r2 =>
  cases h3 : oracle (clickCall input_element_ref) with
  | error e => simp [query_into_search_input, h1, h2, h3] at h
  | ok r3 =>
  cases h4 : oracle (typeCall input_element_ref query_text) with
  | error e => simp [query_into_search_input, h1, h2, h3, h4] at h
  | ok r4 =>
  cases h5 : oracle (pressKeyCall "Enter") with
  | error e => simp [query_into_search_input, h1, h2, h3, h4, h5] at h
  | ok r5 =>
  cases h7 : oracle snapshotCall with
  | error e => simp [query_into_search_input, h1, h2, h3, h4, h5, h7] at h
  | ok res =>
    simp only [query_into_search_input, h1, h2, h3, h4, h5, h7, Except.ok.injEq] at h
    exact ⟨by simp only [query_into_search_input, h1, h2, h3, h4, h5, h7],
      res, rfl, h.symm⟩

theorem search_issues_calls_in_order_witness :
    ((query_into_search_input oracleAllText "http://s" "e5" "laptop").2 =
      Except.ok "results page") ∧
    ((query_into_search_input oracleAllText "http://s" "e5" "laptop").1 =
      [navigateCall "http://s", waitCall 5, clickCall "e5", typeCall "e5" "laptop",
        pressKeyCall "Enter", waitCall 5, snapshotCall] ∧
      ∃ res, oracleAllText snapshotCall = Except.ok res ∧
        "results page" = _extract_text res) :=
  ⟨rfl, search_issues_calls_in_order oracleAllText "http://s" "e5" "laptop" "results page" rfl⟩

/-- C4 counterexample: in an environment without the PLAYWRIGHT_MCP_URL
variable the configured URL is None, yet constructing the processor
completes normally, storing a transport built from None; the repository
performs no fail-fast check and raises no ConfigurationError. The
spec-modelled constructor initSpecModel shows what the claim demands at
the same input. -/
theorem init_missing_url_does_not_fail_cex :
    PLAYWRIGHT_MCP_URL [] = none ∧
    PlaywrightMcp.init (PLAYWRIGHT_MCP_URL []) = ⟨⟨none⟩⟩ ∧
    initSpecModel (PLAYWRIGHT_MCP_URL []) =
      Except.error ConfigurationError.missingServerUrl :=
  ⟨rfl, rfl, rfl⟩

/-- C4 amended: if the environment variable supplying the server URL is
absent, PLAYWRIGHT_MCP_URL is None and constructing the processor still
completes, storing a transport built from the None URL; no
ConfigurationError is raised by the repository code (any later failure
would come from the external transport library, not from a fail-fast
configuration check). -/
theorem init_stores_unvalidated_url (env : List (String × String))
    (h : PLAYWRIGHT_MCP_URL env = none) :
    PlaywrightMcp.init (PLAYWRIGHT_MCP_URL env) = ⟨⟨none⟩⟩ := by
  rw [h]
  rfl

theorem init_stores_unvalidated_url_witness :
    PLAYWRIGHT_MCP_URL [("OPENAI_API_KEY", "k")] = none ∧
    PlaywrightMcp.init (PLAYWRIGHT_MCP_URL [("OPENAI_API_KEY", "k")]) = ⟨⟨none⟩⟩ :=
  ⟨by decide, init_stores_unvalidated_url [("OPENAI_API_KEY", "k")] (by decide)⟩

/-- A test-double oracle whose screenshot result is an image content item
with empty base64 data; every other call returns a text result. -/
def oracleEmptyImage : Oracle := fun c =>
  Except.ok (if c = screenshotCall true then ⟨[⟨"image", "", ""⟩]⟩
    else ⟨[⟨"text", "snap", ""⟩]⟩)

/-- C7 counterexample: the screenshot call of the page task named report
returns image content, but the base64 data of the image item decodes to
the empty byte string, which is falsy in Python, so the task writes no
file at all - refuting the claim that whenever image content is returned
a file named report.png holding the decoded bytes is written. -/
theorem screenshot_empty_image_data_writes_nothing_cex :
    oracleEmptyImage (screenshotCall true) = Except.ok ⟨[⟨"image", "", ""⟩]⟩ ∧
    (ContentItem.mk "image" "" "").type = "image" ∧
    b64decode (ContentItem.mk "image" "" "").data = [] ∧
    (process_page_item oracleEmptyImage ⟨"report", "http://x"⟩).writes = [] := by
  refine ⟨by decide, rfl, rfl, by decide⟩

/-- C7 amended: for every page task of the batch whose screenshot call
returns a result containing an image-typed content item whose base64
data decodes to a non-empty byte string (and whose earlier calls
succeed), the task writes exactly one file, named by appending .png to
the request name, whose byte contents equal the base64-decoded data of
the first image-typed content item. -/
theorem screenshot_writes_decoded_first_image (oracle : Oracle) (item : PageItem)
    (res : ToolResult) (c0 : ContentItem)
    (hok : ∀ c : ToolCall, ∃ r, oracle c = Except.ok r)
    (hshot : oracle (screenshotCall true) = Except.ok res)
    (hfind : res.content.find? (fun ci => ci.type == "image") = some c0)
    (hne : ¬ b64decode c0.data = []) :
    (process_page_item oracle item).writes =
      [⟨item.name ++ ".png", b64decode c0.data⟩] := by
  obtain ⟨r1, h1⟩ := hok (navigateCall item.url)
  obtain ⟨r2, h2⟩ := hok (waitCall 5)
  have himg : _extract_image_bytes res = some (b64decode c0.data) := by
    unfold _extract_image_bytes
    rw [hfind]
  cases h4 : oracle snapshotCall with
  | error e => simp [process_page_item, h1, h2, hshot, himg, hne, h4]
  | ok snap => simp [process_page_item, h1, h2, hshot, himg, hne, h4]

/-- A test-double oracle whose screenshot result carries one image item
with base64 data QQ== (decoding to the single byte 65); every other call
returns a text result. -/
def oracleOneImage : Oracle := fun c =>
  Except.ok (if c = screenshotCall true then ⟨[⟨"image", "", "QQ=="⟩]⟩
    else ⟨[⟨"text", "snap", ""⟩]⟩)

theorem screenshot_writes_decoded_first_image_witness :
    ((∀ c : ToolCall, ∃ r, oracleOneImage c = Except.ok r) ∧
      oracleOneImage (screenshotCall true) = Except.ok ⟨[⟨"image", "", "QQ=="⟩]⟩ ∧
      (ToolResult.mk [⟨"image", "", "QQ=="⟩]).content.find?
        (fun ci => ci.type == "image") = some ⟨"image", "", "QQ=="⟩ ∧
      ¬ b64decode "QQ==" = []) ∧
    (process_page_item oracleOneImage ⟨"report", "http://x"⟩).writes =
      [⟨"report" ++ ".png", b64decode "QQ=="⟩] :=
  ⟨⟨fun c => ⟨_, rfl⟩, by decide, by decide, by decide⟩,
    screenshot_writes_decoded_first_image oracleOneImage ⟨"report", "http://x"⟩
      ⟨[⟨"image", "", "QQ=="⟩]⟩ ⟨"image", "", "QQ=="⟩
      (fun c => ⟨_, rfl⟩) (by decide) (by decide) (by decide)⟩

/-- C2: along every execution of the multiple_clients batch, whatever the
interleaving, at most semInit = 5 client sessions are open at any
instant, and the semaphore counter plus the permits currently held
always equals semInit: every task acquires exactly one permit before its
session opens and has given it back exactly once by the time it is done,
whether its remote calls succeeded or failed. -/
theorem at_most_five_sessions_open (oracle : Oracle) (items : List PageItem)
    (s : BatchState) (h : Reachable oracle items s) :
    s.tasks.countP sessionOpen ≤ semInit ∧
    s.sem + s.tasks.countP holdsPermit = semInit := by
  obtain ⟨_, _, hbal, _⟩ := inv_reachable oracle items s h
  refine ⟨?_, hbal⟩
  have hmono : s.tasks.countP sessionOpen ≤ s.tasks.countP holdsPermit := by
    apply List.countP_mono_left
    intro x _ hx
    cases x <;> simp_all [sessionOpen, holdsPermit]
  omega

/-- C1: along every execution of the multiple_clients batch, whatever
order the page tasks completed in, once every result slot is filled the
collected results have the same length as the input request list, and
the result at index i carries the name and the url of the request at
index i. -/
theorem results_position_aligned (oracle : Oracle) (items : List PageItem)
    (s : BatchState) (h : Reachable oracle items s)
    (hfull : ∀ (i : Nat) (hi : i < s.results.length), s.results.get ⟨i, hi⟩ ≠ none) :
    s.results.length = items.length ∧
    ∀ (i : Nat) (hi : i < s.results.length) (hj : i < items.length),
      ∃ r, s.results.get ⟨i, hi⟩ = some r ∧
        r.name = (items.get ⟨i, hj⟩).name ∧ r.url = (items.get ⟨i, hj⟩).url := by
  obtain ⟨_, hrlen, _, hres⟩ := inv_reachable oracle items s h
  refine ⟨hrlen, ?_⟩
  intro i hi hj
  cases hr : s.results.get ⟨i, hi⟩ with
  | none => exact absurd hr (hfull i hi)
  | some r =>
    have hget : s.results[i] = some r := by
      simpa [List.get_eq_getElem] using hr
    have hq : s.results[i]? = some (some r) := by
      rw [List.getElem?_eq_getElem hi, hget]
    obtain ⟨item, hitem, hok⟩ := hres i r hq
    have hitem2 : item = items.get ⟨i, hj⟩ := by
      rw [List.getElem?_eq_getElem hj] at hitem
      exact (Option.some.inj hitem).symm
    obtain ⟨hname, hurl⟩ := process_result_preserves_name_url oracle item r hok
    exact ⟨r, rfl, by rw [hname, hitem2], by rw [hurl, hitem2]⟩

/-- The one-item batch used as the concrete execution for the witnesses
below. -/
def itemsW : List PageItem := [⟨"A", "http://x"⟩]

/-- A test-double oracle whose every tool result is one text item. -/
def oracleW : Oracle := fun _ => Except.ok ⟨[⟨"text", "hello", ""⟩]⟩

/-- The result the single page task of itemsW computes under oracleW. -/
def resultW : PageItemResult := ⟨"A", "http://x", "hello"⟩

/-- Intermediate state: the task has acquired the semaphore. -/
def stateW1 : BatchState := ⟨4, [Phase.acquired], [none]⟩

/-- Intermediate state: the task has opened its session. -/
def stateW2 : BatchState := ⟨4, [Phase.opened], [none]⟩

/-- Intermediate state: the task has finished and closed its session. -/
def stateW3 : BatchState := ⟨4, [Phase.closed], [some resultW]⟩

/-- Final state: the task has released its permit. -/
def stateW4 : BatchState := ⟨5, [Phase.done], [some resultW]⟩

theorem reachable_stateW4 : Reachable oracleW itemsW stateW4 := by
  have st1 : Step oracleW itemsW (initState itemsW) stateW1 :=
    Step.acquire 0 (initState itemsW) (by decide) (by decide)
  have st2 : Step oracleW itemsW stateW1 stateW2 :=
    Step.openSession 0 stateW1 (by decide)
  have st3 : Step oracleW itemsW stateW2 stateW3 :=
    Step.finishOk 0 stateW2 ⟨"A", "http://x"⟩ resultW (by decide) (by decide) (by decide)
  have st4 : Step oracleW itemsW stateW3 stateW4 :=
    Step.release 0 stateW3 (by decide)
  exact Relation.ReflTransGen.tail (Relation.ReflTransGen.tail (Relation.ReflTransGen.tail
    (Relation.ReflTransGen.tail Relation.ReflTransGen.refl st1) st2) st3) st4

theorem at_most_five_sessions_open_witness :
    Reachable oracleW itemsW stateW4 ∧
    (stateW4.tasks.countP sessionOpen ≤ semInit ∧
      stateW4.sem + stateW4.tasks.countP holdsPermit = semInit) :=
  ⟨reachable_stateW4, at_most_five_sessions_open oracleW itemsW stateW4 reachable_stateW4⟩

theorem results_position_aligned_witness :
    (∀ (i : Nat) (hi : i < stateW4.results.length), stateW4.results.get ⟨i, hi⟩ ≠ none) ∧
    (stateW4.results.length = itemsW.length ∧
      ∀ (i : Nat) (hi : i < stateW4.results.length) (hj : i < itemsW.length),
        ∃ r, stateW4.results.get ⟨i, hi⟩ = some r ∧
          r.name = (itemsW.get ⟨i, hj⟩).name ∧ r.url = (itemsW.get ⟨i, hj⟩).url) :=
  ⟨by decide, results_position_aligned oracleW itemsW stateW4 reachable_stateW4 (by decide)⟩
